import Mathlib

/-!
# Verification of the `compellent` storage-refresh tooling

A shallow embedding, in Lean 4, of the parts of the `compellent` repository
(python) that its specification makes checkable claims about:

* `compellent/utils.py` — `minutes_conversion`, the `refresh` workflow and its
  entity-resolution gates;
* `compellent/connection.py` — `DSMConnection.disconnect`;
* `compellent/__main__.py` — the logout performed in the `finally` block;
* `scripts/change_wwid_alias.py` (and its `compellent/` twin) —
  `process_aliases` and `update_config`;
* `scripts/delete_devices.py` — `disk_associations` and `delete_devices`.

Python strings are Lean `String`s, Python `set`s are lists used up to
membership, Python `dict`s are association lists with insertion-order update,
and exceptions are `Except` values.  Host state (the output of `multipath`,
`findmnt`, `pvs`, the mount table) and the storage-array client are inputs to
the embedded functions, so every function here is pure and executable.
-/

namespace Compellent

/-- Python exceptions raised by the embedded code. -/
inductive PyError where
  /-- `CompellentException(msg)`, the module's catch-all exception. -/
  | compellentException (msg : String)
  /-- `KeyError` from indexing a missing dict key. -/
  | keyError (key : String)
  /-- `IndexError` from indexing an empty string. -/
  | indexError
  /-- `sys.exit(msg)`. -/
  | systemExit (msg : String)
deriving DecidableEq, Repr

/-! ## Python `set` and `dict` models

A Python `set` of strings is modelled as a `List String` used up to
membership; a Python `dict` is an association list whose update keeps the
first occurrence of a key (Python dicts have unique keys, so lookups agree). -/

/-- A Python `set` of strings (used up to membership). -/
abbrev PySet := List String

/-- A Python `dict` keyed by strings. -/
abbrev PyDict (α : Type) := List (String × α)

/-- `s.add x` on a Python set. -/
def pyInsert (x : String) (s : PySet) : PySet :=
  if x ∈ s then s else x :: s

/-- `s | t` on Python sets. -/
def pyUnion (s t : PySet) : PySet :=
  s ++ t.filter (fun x => decide (x ∉ s))

/-- `s & t` on Python sets. -/
def pyInter (s t : PySet) : PySet :=
  s.filter (fun x => decide (x ∈ t))

/-- `s - t` on Python sets. -/
def pyDiff (s t : PySet) : PySet :=
  s.filter (fun x => decide (x ∉ t))

theorem mem_pyInsert {y x : String} {s : PySet} :
    y ∈ pyInsert x s ↔ y = x ∨ y ∈ s := by
  unfold pyInsert
  split
  · next h => constructor
              · exact Or.inr
              · rintro (rfl | hy) <;> assumption
  · simp [List.mem_cons]

theorem mem_pyUnion {y : String} {s t : PySet} :
    y ∈ pyUnion s t ↔ y ∈ s ∨ y ∈ t := by
  unfold pyUnion
  simp only [List.mem_append, List.mem_filter, decide_eq_true_eq]
  constructor
  · rintro (h | ⟨h, _⟩) <;> simp [h]
  · rintro (h | h)
    · exact Or.inl h
    · by_cases hs : y ∈ s
      · exact Or.inl hs
      · exact Or.inr ⟨h, hs⟩

theorem mem_pyInter {y : String} {s t : PySet} :
    y ∈ pyInter s t ↔ y ∈ s ∧ y ∈ t := by
  simp [pyInter, List.mem_filter]

theorem mem_pyDiff {y : String} {s t : PySet} :
    y ∈ pyDiff s t ↔ y ∈ s ∧ y ∉ t := by
  simp [pyDiff, List.mem_filter]

/-- `d[k] = v` on a Python dict: replace in place, else append. -/
def dictSet {α : Type} (k : String) (v : α) : PyDict α → PyDict α
  | [] => [(k, v)]
  | (k', v') :: rest =>
      if k' = k then (k, v) :: rest else (k', v') :: dictSet k v rest

/-- `d.get(k)` on a Python dict. -/
def dictGet? {α : Type} (k : String) : PyDict α → Option α
  | [] => none
  | (k', v) :: rest => if k' = k then some v else dictGet? k rest

/-- `d[k]` with a default, used where the key is known to be present. -/
def dictGetD {α : Type} (k : String) (d : PyDict α) (dflt : α) : α :=
  (dictGet? k d).getD dflt

/-- `k in d` on a Python dict. -/
def dictMem {α : Type} (k : String) (d : PyDict α) : Bool :=
  (dictGet? k d).isSome

/-- `d.pop(k)` on a Python dict (the removal part). -/
def dictPop {α : Type} (k : String) (d : PyDict α) : PyDict α :=
  d.filter (fun p => decide (p.1 ≠ k))

theorem dictGet?_dictSet_self {α : Type} (k : String) (v : α) (d : PyDict α) :
    dictGet? k (dictSet k v d) = some v := by
  induction d with
  | nil => simp [dictSet, dictGet?]
  | cons p rest ih =>
      obtain ⟨k', v'⟩ := p
      by_cases h : k' = k <;> simp [dictSet, dictGet?, h, ih]

theorem dictGet?_mem {α : Type} {k : String} {v : α} {d : PyDict α}
    (h : dictGet? k d = some v) : (k, v) ∈ d := by
  induction d with
  | nil => simp [dictGet?] at h
  | cons p rest ih =>
      obtain ⟨k', v'⟩ := p
      by_cases hk : k' = k
      · simp [dictGet?, hk] at h
        simp [hk, h]
      · simp [dictGet?, hk] at h
        exact List.mem_cons_of_mem _ (ih h)

theorem dictGet?_isSome_of_mem {α : Type} {k : String} {v : α} {d : PyDict α}
    (h : (k, v) ∈ d) : (dictGet? k d).isSome := by
  induction d with
  | nil => simp at h
  | cons p rest ih =>
      obtain ⟨k', v'⟩ := p
      rcases List.mem_cons.mp h with h' | h'
      · injection h' with h1 h2
        simp [dictGet?, h1]
      · by_cases hk : k' = k <;> simp [dictGet?, hk, ih h']

/-! ## Python character and string primitives -/

/-- Python's `\s` class (ASCII part): space, tab, newline, carriage return,
vertical tab, form feed. -/
def pyIsSpace (c : Char) : Bool :=
  c = ' ' || c = '\t' || c = '\n' || c = '\r' || c = '\x0b' || c = '\x0c'

/-- Membership in Python's `string.digits` (`'0123456789'`), which is also the
`\d` class for the ASCII strings handled here. -/
def isDigitChar (c : Char) : Bool :=
  c ∈ ['0', '1', '2', '3', '4', '5', '6', '7', '8', '9']

/-- Python's `\w` class (ASCII part): letters, digits, underscore. -/
def isWordChar (c : Char) : Bool :=
  ('a' ≤ c && c ≤ 'z') || ('A' ≤ c && c ≤ 'Z') || isDigitChar c || c = '_'

/-- ASCII letters, the `[a-zA-Z]` class. -/
def isAsciiAlpha (c : Char) : Bool :=
  ('a' ≤ c && c ≤ 'z') || ('A' ≤ c && c ≤ 'Z')

/-- Python `str.lower` on one character (the inputs here are ASCII). -/
def pyLowerChar (c : Char) : Char :=
  if 'A' ≤ c && c ≤ 'Z' then Char.ofNat (c.toNat + 32) else c

/-- Python `str.lower` (the inputs here are ASCII). -/
def pyLower (s : String) : String :=
  String.mk (s.data.map pyLowerChar)

/-- Python `str.strip()` on a character list: drop leading and trailing
whitespace. -/
def pyStripChars (cs : List Char) : List Char :=
  (((cs.dropWhile pyIsSpace).reverse.dropWhile pyIsSpace).reverse)

/-- Python `str.strip()`. -/
def pyStrip (s : String) : String :=
  String.mk (pyStripChars s.data)

/-- Python's substring test `needle in hay`: some suffix of `hay` starts
with `needle`. -/
def strContains (hay needle : String) : Bool :=
  hay.data.tails.any (fun t => needle.data.isPrefixOf t)

/-- The numeric value of a decimal digit character. -/
def digitVal (c : Char) : Nat := c.toNat - 48

/-- Parse a non-empty all-digit character list as a natural number (the core
of Python's `int()` after sign handling). -/
def parseNatDigits? (cs : List Char) : Option Nat :=
  if cs = [] then none
  else if cs.all isDigitChar then
    some (cs.foldl (fun a c => 10 * a + digitVal c) 0)
  else none

/-- Python's `int(s)`: strip whitespace, an optional sign, then decimal
digits; anything else raises `ValueError` (`none` here).  (Python also allows
underscores between digits; no input in this development contains one.) -/
def pyInt? (s : String) : Option Int :=
  match pyStripChars s.data with
  | [] => none
  | c :: rest =>
      if c = '-' then (parseNatDigits? rest).map (fun n => -(n : Int))
      else if c = '+' then (parseNatDigits? rest).map (fun n => (n : Int))
      else (parseNatDigits? (c :: rest)).map (fun n => (n : Int))

/-! ## `compellent/utils.py`: `minutes_conversion` -/

/-- The modifier arm of `minutes_conversion` (everything after
`value, modifier = time[:-1], time[-1].lower()` succeeds in parsing `value`):
the negativity check, the `modifier not in 'hdwmy'` check, and the
multiplier `if`-chain. -/
def applyModifier (v : Int) (modifier : Char) : Except PyError Int :=
  if v < 0 then
    .error (.compellentException "Expiration time value cannot be negative")
  else if ¬ (modifier ∈ ['h', 'd', 'w', 'm', 'y']) then
    .error (.compellentException ("Invalid time modifier: " ++ String.mk [modifier]))
  else if modifier = 'h' then .ok (v * 60)
  else if modifier = 'd' then .ok (v * (24 * 60))
  else if modifier = 'w' then .ok (v * (7 * 24 * 60))
  else if modifier = 'm' then .ok (v * (30 * 24 * 60))
  else if modifier = 'y' then .ok (v * (365 * 24 * 60))
  else .error (.compellentException "Multiplier not assigned correctly")

/-- `utils.minutes_conversion(time)`: convert a time expression
(`<int>` or `<int><modifier>`) to minutes. -/
def minutes_conversion (time : String) : Except PyError Int :=
  match time.data.getLast? with
  | none => .error .indexError      -- `time[-1]` on an empty string
  | some last =>
      if isDigitChar last then
        -- plain integer without modifier
        match pyInt? time with
        | none => .error (.compellentException
            ("Cannot convert " ++ time ++ " to integer"))
        | some v =>
            if v < 0 then
              .error (.compellentException
                "Expiration time value cannot be negative")
            else .ok v
      else
        -- split off value from modifier, lower-case the modifier
        let value := String.mk time.data.dropLast
        let modifier := pyLowerChar last
        match pyInt? value with
        | none => .error (.compellentException
            ("Invalid time string format " ++ time))
        | some v => applyModifier v modifier

/-! ### Decimal printing of naturals

`toString (n : Nat)` is `Nat.repr`, i.e. `Nat.toDigits 10 n` rendered as a
string.  `decDigits` is the same digit list defined by structural division,
with a lemma connecting the two, so that `pyInt?` can be proved to invert
printing. -/

/-- Big-endian decimal digits of a natural number. -/
def decDigits (n : Nat) : List Char :=
  if _h : n < 10 then [Nat.digitChar n]
  else decDigits (n / 10) ++ [Nat.digitChar (n % 10)]
decreasing_by exact Nat.div_lt_self (by omega) (by omega)

theorem toDigitsCore_eq_decDigits :
    ∀ (f n : Nat), n < f → ∀ (ds : List Char),
      Nat.toDigitsCore 10 f n ds = decDigits n ++ ds := by
  intro f
  induction f with
  | zero => omega
  | succ f ih =>
      intro n hn ds
      rw [Nat.toDigitsCore]
      by_cases h10 : n / 10 = 0
      · have hlt : n < 10 := by omega
        rw [decDigits]
        simp [h10, hlt, Nat.mod_eq_of_lt hlt]
      · have hge : ¬ n < 10 := by
          intro hc
          exact h10 (Nat.div_eq_of_lt hc)
        have hfuel : n / 10 < f := by
          have h1 : n / 10 < n := Nat.div_lt_self (by omega) (by omega)
          omega
        rw [decDigits]
        simp only [hge, dite_false, h10, ite_false]
        rw [ih (n / 10) hfuel]
        simp

theorem toString_nat_data (n : Nat) : (toString n).data = decDigits n := by
  show (Nat.repr n).data = decDigits n
  unfold Nat.repr Nat.toDigits
  rw [toDigitsCore_eq_decDigits (n + 1) n (by omega)]
  simp [List.asString]

theorem decDigits_ne_nil (n : Nat) : decDigits n ≠ [] := by
  rw [decDigits]
  split <;> simp

theorem digitChar_isDigit : ∀ k, k < 10 → isDigitChar (Nat.digitChar k) = true := by
  decide

theorem digitVal_digitChar : ∀ k, k < 10 → digitVal (Nat.digitChar k) = k := by
  decide

theorem decDigits_all_digits (n : Nat) :
    ∀ c ∈ decDigits n, isDigitChar c = true := by
  induction n using Nat.strong_induction_on with
  | _ n ih =>
      rw [decDigits]
      split
      · next h =>
          intro c hc
          simp at hc
          rw [hc]
          exact digitChar_isDigit n h
      · next h =>
          intro c hc
          rcases List.mem_append.mp hc with h1 | h1
          · exact ih (n / 10) (Nat.div_lt_self (by omega) (by omega)) c h1
          · simp at h1
            rw [h1]
            exact digitChar_isDigit _ (Nat.mod_lt _ (by omega))

theorem decDigits_foldl (n : Nat) :
    ∀ a : Nat, (decDigits n).foldl (fun a c => 10 * a + digitVal c) a =
      a * 10 ^ (decDigits n).length + n := by
  induction n using Nat.strong_induction_on with
  | _ n ih =>
      intro a
      rw [decDigits]
      split
      · next h =>
          simp [digitVal_digitChar n h]
          omega
      · next h =>
          rw [List.foldl_append]
          rw [ih (n / 10) (Nat.div_lt_self (by omega) (by omega))]
          have hm : n % 10 < 10 := Nat.mod_lt n (by omega)
          have hdm : 10 * (n / 10) + n % 10 = n := by omega
          simp only [List.foldl_cons, List.foldl_nil, digitVal_digitChar _ hm,
            List.length_append, List.length_singleton, pow_succ]
          calc 10 * (a * 10 ^ (decDigits (n / 10)).length + n / 10) + n % 10
              = a * (10 ^ (decDigits (n / 10)).length * 10) +
                  (10 * (n / 10) + n % 10) := by ring
            _ = a * (10 ^ (decDigits (n / 10)).length * 10) + n := by rw [hdm]

theorem parseNatDigits?_decDigits (n : Nat) :
    parseNatDigits? (decDigits n) = some n := by
  unfold parseNatDigits?
  rw [if_neg (decDigits_ne_nil n)]
  rw [if_pos (List.all_eq_true.mpr (decDigits_all_digits n))]
  rw [decDigits_foldl n 0]
  simp

theorem digit_not_space {c : Char} (h : isDigitChar c = true) :
    pyIsSpace c = false := by
  unfold isDigitChar at h
  simp only [List.mem_cons, List.not_mem_nil, or_false, decide_eq_true_eq] at h
  rcases h with rfl | rfl | rfl | rfl | rfl | rfl | rfl | rfl | rfl | rfl <;> decide

theorem pyStripChars_eq_self {cs : List Char}
    (h : ∀ c ∈ cs, pyIsSpace c = false) : pyStripChars cs = cs := by
  have drop1 : ∀ (l : List Char), (∀ c ∈ l, pyIsSpace c = false) →
      l.dropWhile pyIsSpace = l := by
    intro l hl
    cases l with
    | nil => rfl
    | cons c t =>
        rw [List.dropWhile_cons_of_neg]
        simp [hl c (List.mem_cons_self c t)]
  unfold pyStripChars
  rw [drop1 cs h]
  rw [drop1 cs.reverse (fun c hc => h c (List.mem_reverse.mp hc))]
  exact List.reverse_reverse cs

theorem pyInt?_decDigits {cs : List Char}
    (hne : cs ≠ []) (hdig : ∀ c ∈ cs, isDigitChar c = true)
    {n : Nat}
    (hval : parseNatDigits? cs = some n) :
    pyInt? (String.mk cs) = some (n : Int) := by
  have hns : ∀ c ∈ cs, pyIsSpace c = false := fun c hc => digit_not_space (hdig c hc)
  have hstrip : pyStripChars (String.mk cs).data = cs := pyStripChars_eq_self hns
  unfold pyInt?
  rw [hstrip]
  cases cs with
  | nil => exact absurd rfl hne
  | cons c rest =>
      have hc : isDigitChar c = true := hdig c (List.mem_cons_self c rest)
      have hcm : c ≠ '-' := by
        intro h
        rw [h] at hc
        exact absurd hc (by decide)
      have hcp : c ≠ '+' := by
        intro h
        rw [h] at hc
        exact absurd hc (by decide)
      simp only [if_neg hcm, if_neg hcp, hval]
      rfl

theorem pyInt?_toString (n : Nat) : pyInt? (toString n) = some (n : Int) := by
  have hd := toString_nat_data n
  have hs : toString n = String.mk (decDigits n) := by
    refine String.ext ?_
    simpa using hd
  rw [hs]
  exact pyInt?_decDigits (decDigits_ne_nil n) (decDigits_all_digits n)
    (parseNatDigits?_decDigits n)

theorem getLast?_decDigits (n : Nat) :
    ∃ c, (decDigits n).getLast? = some c ∧ isDigitChar c = true := by
  cases hc : (decDigits n).getLast? with
  | none => exact absurd (List.getLast?_eq_none_iff.mp hc) (decDigits_ne_nil n)
  | some c =>
      exact ⟨c, rfl, decDigits_all_digits n c (List.mem_of_getLast?_eq_some hc)⟩

theorem toString_nat_eq_mk (n : Nat) : toString n = String.mk (decDigits n) := by
  refine String.ext ?_
  simpa using toString_nat_data n

/-- Evaluating `minutes_conversion` on `str(n)` (a plain non-negative
integer): the digit branch is taken and the value itself is returned. -/
theorem minutes_conversion_toString (n : Nat) :
    minutes_conversion (toString n) = .ok (n : Int) := by
  obtain ⟨c, hlast, hdigit⟩ := getLast?_decDigits n
  unfold minutes_conversion
  rw [toString_nat_data n, hlast]
  simp only [hdigit, if_true]
  rw [pyInt?_toString n]
  simp [not_lt.mpr (Int.natCast_nonneg n)]

/-- Evaluating `minutes_conversion` on `str(n) + ch` for a non-digit `ch`:
the modifier branch is taken with value `n` and modifier `ch.lower()`. -/
theorem minutes_conversion_append_char (n : Nat) (ch : Char)
    (h : isDigitChar ch = false) :
    minutes_conversion (toString n ++ String.mk [ch]) =
      applyModifier (n : Int) (pyLowerChar ch) := by
  have hdata : (toString n ++ String.mk [ch]).data = decDigits n ++ [ch] := by
    rw [String.data_append, toString_nat_data n]
  unfold minutes_conversion
  rw [hdata, List.getLast?_concat]
  simp only [h, Bool.false_eq_true, if_false, List.dropLast_concat]
  rw [pyInt?_decDigits (decDigits_ne_nil n)
    (decDigits_all_digits n) (parseNatDigits?_decDigits n)]

theorem pyInt?_neg_decDigits (n : Nat) :
    pyInt? (String.mk ('-' :: decDigits n)) = some (-(n : Int)) := by
  have hns : ∀ c ∈ '-' :: decDigits n, pyIsSpace c = false := by
    intro c hc
    rcases List.mem_cons.mp hc with rfl | hc
    · decide
    · exact digit_not_space (decDigits_all_digits n c hc)
  have hstrip : pyStripChars (String.mk ('-' :: decDigits n)).data =
      '-' :: decDigits n := pyStripChars_eq_self hns
  unfold pyInt?
  rw [hstrip]
  simp [parseNatDigits?_decDigits n]

/-- Evaluating `minutes_conversion` on `"-" + str(n)`: rejected as negative
when `0 < n`. -/
theorem minutes_conversion_neg (n : Nat) (hn : 0 < n) :
    minutes_conversion ("-" ++ toString n) =
      .error (.compellentException "Expiration time value cannot be negative") := by
  have hdata : ("-" ++ toString n).data = '-' :: decDigits n := by
    rw [String.data_append, toString_nat_data n]
    rfl
  obtain ⟨c, hlast, hdigit⟩ := getLast?_decDigits n
  have hlast' : ('-' :: decDigits n).getLast? = some c := by
    cases hd : decDigits n with
    | nil => exact absurd hd (decDigits_ne_nil n)
    | cons a l =>
        rw [hd] at hlast
        rw [List.getLast?_cons_cons]
        exact hlast
  unfold minutes_conversion
  rw [hdata, hlast']
  simp only [hdigit, if_true]
  rw [show ("-" ++ toString n : String) = String.mk ('-' :: decDigits n) from
    String.ext hdata]
  rw [pyInt?_neg_decDigits n]
  have hneg : (-(n : Int)) < 0 := by omega
  simp [hneg]

/-- Evaluating `minutes_conversion` on `"-" + str(n) + ch` for non-digit
`ch`: rejected as negative when `0 < n`, before the modifier is examined. -/
theorem minutes_conversion_neg_modifier (n : Nat) (hn : 0 < n) (ch : Char)
    (h : isDigitChar ch = false) :
    minutes_conversion ("-" ++ toString n ++ String.mk [ch]) =
      .error (.compellentException "Expiration time value cannot be negative") := by
  have hdata : ("-" ++ toString n ++ String.mk [ch]).data =
      ('-' :: decDigits n) ++ [ch] := by
    rw [String.data_append, String.data_append, toString_nat_data n]
    rfl
  unfold minutes_conversion
  rw [hdata, List.getLast?_concat]
  simp only [h, Bool.false_eq_true, if_false, List.dropLast_concat]
  rw [pyInt?_neg_decDigits n]
  have hneg : (-(n : Int)) < 0 := by omega
  unfold applyModifier
  simp [hneg]

theorem applyModifier_invalid (v : Int) (hv : 0 ≤ v) (m : Char)
    (hm : m ∉ (['h', 'd', 'w', 'm', 'y'] : List Char)) :
    applyModifier v m =
      .error (.compellentException ("Invalid time modifier: " ++ String.mk [m])) := by
  unfold applyModifier
  rw [if_neg (not_lt.mpr hv), if_pos hm]

theorem applyModifier_h (v : Int) (hv : 0 ≤ v) :
    applyModifier v 'h' = .ok (v * 60) := by
  unfold applyModifier
  rw [if_neg (not_lt.mpr hv)]
  rfl

theorem applyModifier_d (v : Int) (hv : 0 ≤ v) :
    applyModifier v 'd' = .ok (v * 1440) := by
  unfold applyModifier
  rw [if_neg (not_lt.mpr hv)]
  rfl

theorem applyModifier_w (v : Int) (hv : 0 ≤ v) :
    applyModifier v 'w' = .ok (v * 10080) := by
  unfold applyModifier
  rw [if_neg (not_lt.mpr hv)]
  rfl

theorem applyModifier_m (v : Int) (hv : 0 ≤ v) :
    applyModifier v 'm' = .ok (v * 43200) := by
  unfold applyModifier
  rw [if_neg (not_lt.mpr hv)]
  rfl

theorem applyModifier_y (v : Int) (hv : 0 ≤ v) :
    applyModifier v 'y' = .ok (v * 525600) := by
  unfold applyModifier
  rw [if_neg (not_lt.mpr hv)]
  rfl

/-- **C5** (amended).  For every non-negative integer `n`: `str(n)+c` for
`c ∈ {h,d,w,m,y}` converts to `n` times 60/1440/10080/43200/525600;
`str(n)` converts to `n` itself; expressions with a negative value are
rejected; and a non-digit modifier **whose lower-cased form** is outside
`{h,d,w,m,y}` is rejected.  (The unamended claim — rejection of every
modifier outside the literal set `{h,d,w,m,y}` — fails because the code
lower-cases the modifier first; see
`minutes_conversion_uppercase_not_rejected`.) -/
theorem minutes_conversion_contract (n : Nat) (c : Char) :
    minutes_conversion (toString n ++ "h") = .ok ((n : Int) * 60)
    ∧ minutes_conversion (toString n ++ "d") = .ok ((n : Int) * 1440)
    ∧ minutes_conversion (toString n ++ "w") = .ok ((n : Int) * 10080)
    ∧ minutes_conversion (toString n ++ "m") = .ok ((n : Int) * 43200)
    ∧ minutes_conversion (toString n ++ "y") = .ok ((n : Int) * 525600)
    ∧ minutes_conversion (toString n) = .ok (n : Int)
    ∧ (0 < n → minutes_conversion ("-" ++ toString n) =
        .error (.compellentException "Expiration time value cannot be negative"))
    ∧ (0 < n → isDigitChar c = false →
        minutes_conversion ("-" ++ toString n ++ String.mk [c]) =
          .error (.compellentException "Expiration time value cannot be negative"))
    ∧ (isDigitChar c = false →
        pyLowerChar c ∉ (['h', 'd', 'w', 'm', 'y'] : List Char) →
        minutes_conversion (toString n ++ String.mk [c]) =
          .error (.compellentException
            ("Invalid time modifier: " ++ String.mk [pyLowerChar c]))) := by
  have hnn : (0 : Int) ≤ (n : Int) := Int.natCast_nonneg n
  refine ⟨?_, ?_, ?_, ?_, ?_, minutes_conversion_toString n,
    minutes_conversion_neg n, fun hn hc => minutes_conversion_neg_modifier n hn c hc, ?_⟩
  · rw [show ("h" : String) = String.mk ['h'] from rfl,
      minutes_conversion_append_char n 'h' (by decide)]
    exact applyModifier_h _ hnn
  · rw [show ("d" : String) = String.mk ['d'] from rfl,
      minutes_conversion_append_char n 'd' (by decide)]
    exact applyModifier_d _ hnn
  · rw [show ("w" : String) = String.mk ['w'] from rfl,
      minutes_conversion_append_char n 'w' (by decide)]
    exact applyModifier_w _ hnn
  · rw [show ("m" : String) = String.mk ['m'] from rfl,
      minutes_conversion_append_char n 'm' (by decide)]
    exact applyModifier_m _ hnn
  · rw [show ("y" : String) = String.mk ['y'] from rfl,
      minutes_conversion_append_char n 'y' (by decide)]
    exact applyModifier_y _ hnn
  · intro hc hm
    rw [minutes_conversion_append_char n c hc]
    exact applyModifier_invalid _ hnn _ hm

/-- Witness for `minutes_conversion_contract` at `n = 3`, `c = 'x'`. -/
theorem minutes_conversion_contract_witness :
    (0 < 3 ∧ isDigitChar 'x' = false
      ∧ pyLowerChar 'x' ∉ (['h', 'd', 'w', 'm', 'y'] : List Char))
    ∧ minutes_conversion ("-" ++ toString 3) =
        .error (.compellentException "Expiration time value cannot be negative")
    ∧ minutes_conversion ("-" ++ toString 3 ++ String.mk ['x']) =
        .error (.compellentException "Expiration time value cannot be negative")
    ∧ minutes_conversion (toString 3 ++ String.mk ['x']) =
        .error (.compellentException
          ("Invalid time modifier: " ++ String.mk [pyLowerChar 'x'])) :=
  ⟨⟨by decide, by decide, by decide⟩,
    (minutes_conversion_contract 3 'x').2.2.2.2.2.2.1 (by decide),
    (minutes_conversion_contract 3 'x').2.2.2.2.2.2.2.1 (by decide) (by decide),
    (minutes_conversion_contract 3 'x').2.2.2.2.2.2.2.2 (by decide) (by decide)⟩

/-- **C5** (counterexample to the claim as stated).  `'H'` is a modifier
outside `{h, d, w, m, y}`, yet `minutes_conversion "1H"` returns a value
(`60`) instead of raising an exception. -/
theorem minutes_conversion_uppercase_not_rejected :
    minutes_conversion "1H" = .ok 60
      ∧ 'H' ∉ (['h', 'd', 'w', 'm', 'y'] : List Char) :=
  ⟨rfl, by decide⟩

/-- **C10** (confirmed).  The expiration-modifier letter is accepted
case-insensitively: for every `n` and upper-case modifier `M` in
`{H, D, W, M, Y}`, `minutes_conversion (str(n) + M)` equals
`minutes_conversion (str(n) + M.lower())`. -/
theorem minutes_conversion_case_insensitive (n : Nat) (M : Char)
    (hM : M ∈ (['H', 'D', 'W', 'M', 'Y'] : List Char)) :
    minutes_conversion (toString n ++ String.mk [M]) =
      minutes_conversion (toString n ++ String.mk [pyLowerChar M]) := by
  simp only [List.mem_cons, List.not_mem_nil, or_false] at hM
  rcases hM with rfl | rfl | rfl | rfl | rfl <;>
    rw [minutes_conversion_append_char n _ (by decide),
      minutes_conversion_append_char n _ (by decide)] <;>
    congr 1

/-- Witness for `minutes_conversion_case_insensitive` at `n = 5`, `M = 'H'`. -/
theorem minutes_conversion_case_insensitive_witness :
    'H' ∈ (['H', 'D', 'W', 'M', 'Y'] : List Char)
      ∧ minutes_conversion (toString 5 ++ String.mk ['H']) =
          minutes_conversion (toString 5 ++ String.mk [pyLowerChar 'H']) :=
  ⟨by decide, minutes_conversion_case_insensitive 5 'H' (by decide)⟩

/-! ## Entity resolution gates (`utils.refresh`)

`utils.refresh` guards every server/volume(mapping) name search with
`if len(matches) != 1: raise CompellentException('Ambiguous or non-existent …')`
and then proceeds with `matches[0]`.  `resolve_unique` is that gate. -/

/-- The uniqueness gate applied by `utils.refresh` to the result list of
`search_server` / `search_server_mappings`. -/
def resolve_unique {α : Type} (ms : List α) (msg : String) :
    Except PyError α :=
  if ms.length ≠ 1 then .error (.compellentException msg)
  else
    match ms with
    | m :: _ => .ok m
    | [] => .error (.compellentException msg)   -- unreachable: length = 1

/-- **C6** (amended).  Resolution succeeds iff the search returned exactly
one match; with zero or more than one match it fails — with the single
catch-all `CompellentException('Ambiguous or non-existent …')` in both
cases, the code not distinguishing a `NotFound` kind from an
`AmbiguousMatch` kind — and never silently proceeds with the first
element. -/
theorem resolution_gate_unique {α : Type} (ms : List α) (msg : String) :
    ((∃ m, resolve_unique ms msg = .ok m) ↔ ms.length = 1)
    ∧ (ms.length ≠ 1 →
        resolve_unique ms msg = .error (.compellentException msg)) := by
  constructor
  · constructor
    · rintro ⟨m, hm⟩
      by_cases h : ms.length = 1
      · exact h
      · simp [resolve_unique, h] at hm
    · intro h
      match ms, h with
      | [m], _ => exact ⟨m, by simp [resolve_unique]⟩
  · intro h
    simp [resolve_unique, h]

/-- Witness for `resolution_gate_unique` on an empty result list. -/
theorem resolution_gate_unique_witness :
    (([] : List Nat).length ≠ 1)
    ∧ resolve_unique ([] : List Nat) "Ambiguous or non-existent server dbA" =
        .error (.compellentException "Ambiguous or non-existent server dbA") :=
  ⟨by decide,
    (resolution_gate_unique ([] : List Nat)
      "Ambiguous or non-existent server dbA").2 (by decide)⟩

/-- **C6** (counterexample to the claim as stated).  A search with zero
results and a search with two results fail with the *identical*
`CompellentException` — there is no distinct `NotFound` kind for zero
matches and `AmbiguousMatch` kind for many matches. -/
theorem resolution_gate_same_error_for_zero_and_many :
    resolve_unique ([] : List Nat) "Ambiguous or non-existent volume oradata" =
      .error (.compellentException "Ambiguous or non-existent volume oradata")
    ∧ resolve_unique [1, 2] "Ambiguous or non-existent volume oradata" =
      .error (.compellentException "Ambiguous or non-existent volume oradata") :=
  ⟨rfl, rfl⟩

/-! ## Session teardown (`connection.DSMConnection.disconnect`, `__main__`) -/

/-- A bare `try: ... except: pass`: the action's result is kept on success
and discarded on any exception. -/
def pyTryExceptPass {α : Type} (action : Except PyError α) : Option α :=
  match action with
  | .ok a => some a
  | .error _ => none

/-- What `DSMConnection.disconnect` did before returning. -/
structure DisconnectTrace where
  logoutAttempted : Bool
  logoutSucceeded : Bool
  connectionClosed : Bool
deriving DecidableEq, Repr

/-- `DSMConnection.disconnect`: POST `/ApiConnection/Logout` inside
`try/except: pass`, then `if self.connection: self.connection.close()`.
`logoutPost` is the outcome the network gives the POST; `hasConnection` is
the truthiness of `self.connection`. -/
def disconnect (logoutPost : Except PyError Unit) (hasConnection : Bool) :
    Except PyError DisconnectTrace :=
  let r := pyTryExceptPass logoutPost
  .ok { logoutAttempted := true, logoutSucceeded := r.isSome,
        connectionClosed := hasConnection }

/-- The `finally` block of `__main__.main`: POST `/ApiConnection/Logout` and
raise `CompellentException` if the POST fails. -/
def main_logout_finally (logoutPost : Except PyError Unit) :
    Except PyError Unit :=
  match logoutPost with
  | .ok _ => .ok ()
  | .error _ => .error (.compellentException
      "Unable to logout, server has not responded for 3 seconds")

/-- **C9** (amended).  `DSMConnection.disconnect` swallows a logout failure:
for every outcome of the logout request and every connection state it
returns normally, having attempted the logout and closed the underlying
connection exactly when one exists.  (The `__main__` teardown path does NOT
swallow the failure; see `main_finally_propagates_logout_failure`.) -/
theorem disconnect_swallows_logout_failure
    (logoutPost : Except PyError Unit) (hasConnection : Bool) :
    ∃ t : DisconnectTrace, disconnect logoutPost hasConnection = .ok t
      ∧ t.logoutAttempted = true ∧ t.connectionClosed = hasConnection := by
  exact ⟨_, rfl, rfl, rfl⟩

/-- **C9** (counterexample to the claim as stated).  On the `__main__` exit
path, a failing logout request makes the teardown raise
`CompellentException` instead of returning normally — the failure is
propagated to the caller. -/
theorem main_finally_propagates_logout_failure :
    main_logout_finally (.error (.compellentException "connection timed out")) =
      .error (.compellentException
        "Unable to logout, server has not responded for 3 seconds")
    ∧ main_logout_finally
        (.error (.compellentException "connection timed out")) ≠ .ok () := by
  refine ⟨rfl, fun h => ?_⟩
  simp [main_logout_finally] at h

/-! ## `change_wwid_alias.process_aliases` -/

/-- `re.match` with the pattern `(?P<wwid>\w+):(?P<alias>\w+)`: a maximal
non-empty run of word characters, a colon, then a non-empty run of word
characters (trailing text is allowed — `re.match` only anchors the start). -/
def parseWwidAliasPair (s : String) : Option (String × String) :=
  let w := s.data.takeWhile isWordChar
  if w = [] then none
  else
    match s.data.drop w.length with
    | ':' :: rest =>
        let a := rest.takeWhile isWordChar
        if a = [] then none else some (String.mk w, String.mk a)
    | _ => none

/-- `change_wwid_alias.process_aliases(wwids, wwid_aliases)`: fold the
requested `wwid:alias` pairs over the in-memory table.  `mounted alias`
models whether `findmnt … --source /dev/mapper/<alias>` prints any output
(the current alias's device is mounted). -/
def process_aliases (mounted : String → Bool) (wwids : PyDict String)
    (wwid_aliases : List String) : Except PyError (PyDict String) :=
  wwid_aliases.foldlM
    (fun d pair =>
      match parseWwidAliasPair pair with
      | some (wwid, new_alias) =>
          match dictGet? wwid d with
          | some current_alias =>
              if mounted current_alias then
                .ok d      -- refusal; only printed when verbose
              else
                .ok (dictSet wwid new_alias d)
          | none => .ok d  -- wwid not currently known: pair is ignored
      | none => .error (.systemExit
          (pair ++ " does not match the 'wwid:alias' format.")))
    wwids

/-- **C4** (amended).  For a requested pair `wwid:alias` processed against
the current table: if the wwid is known and its *current* alias's device is
mounted, the pair is skipped and the table is unchanged; if the wwid is
known and not mounted, the table entry is updated to the new alias; if the
wwid is not currently known, the pair is ignored and the table is unchanged
(the unamended claim said the table would gain the mapping in this case;
see `process_aliases_unknown_wwid_ignored`). -/
theorem process_aliases_pair_behavior (mounted : String → Bool)
    (d : PyDict String) (p wwid new_alias : String)
    (hp : parseWwidAliasPair p = some (wwid, new_alias)) :
    (∀ cur, dictGet? wwid d = some cur → mounted cur = true →
        process_aliases mounted d [p] = .ok d)
    ∧ (∀ cur, dictGet? wwid d = some cur → mounted cur = false →
        process_aliases mounted d [p] = .ok (dictSet wwid new_alias d)
          ∧ dictGet? wwid (dictSet wwid new_alias d) = some new_alias)
    ∧ (dictGet? wwid d = none → process_aliases mounted d [p] = .ok d) := by
  refine ⟨?_, ?_, ?_⟩
  · intro cur hc hm
    simp [process_aliases, hp, hc, hm]
  · intro cur hc hm
    exact ⟨by simp [process_aliases, hp, hc, hm],
      dictGet?_dictSet_self wwid new_alias d⟩
  · intro hc
    simp [process_aliases, hp, hc]

/-- Witness for `process_aliases_pair_behavior`: the spec's scenario — the
pair `36000d31…a5:testvol1` is requested while `/dev/mapper/testvol1` is
mounted, and the table entry is left unchanged. -/
theorem process_aliases_pair_behavior_witness :
    parseWwidAliasPair "36000d31000d5f00000000000000000a5:testvol1" =
      some ("36000d31000d5f00000000000000000a5", "testvol1")
    ∧ dictGet? "36000d31000d5f00000000000000000a5"
        [("36000d31000d5f00000000000000000a5", "testvol1")] = some "testvol1"
    ∧ (fun a => a == "testvol1") "testvol1" = true
    ∧ process_aliases (fun a => a == "testvol1")
        [("36000d31000d5f00000000000000000a5", "testvol1")]
        ["36000d31000d5f00000000000000000a5:testvol1"] =
        .ok [("36000d31000d5f00000000000000000a5", "testvol1")] :=
  ⟨rfl, rfl, rfl,
    (process_aliases_pair_behavior (fun a => a == "testvol1")
        [("36000d31000d5f00000000000000000a5", "testvol1")]
        "36000d31000d5f00000000000000000a5:testvol1"
        "36000d31000d5f00000000000000000a5" "testvol1" rfl).1
      "testvol1" rfl rfl⟩

/-- **C4** (counterexample to the claim as stated).  A pair whose wwid is
*not* currently known leaves the table unchanged: after processing
`36000d31…a5:testvol1` against an empty table (nothing mounted), the table
still has no entry for the wwid, although the claim said the table would be
updated so the wwid maps to the new alias. -/
theorem process_aliases_unknown_wwid_ignored :
    process_aliases (fun _ => false) []
      ["36000d31000d5f00000000000000000a5:testvol1"] = .ok ([] : PyDict String)
    ∧ dictGet? "36000d31000d5f00000000000000000a5" ([] : PyDict String) = none :=
  ⟨rfl, rfl⟩

/-! ## `utils.refresh`

`refresh(dsm, ssh, src_server, dest_server, volume, environment, mountpoint)`
lower-cases both host names, checks the two preconditions, resolves both
hosts, builds the view-volume name, resolves the source and destination
servers and the source mapping through the uniqueness gate, snapshots,
locates or creates the view-volume folder, creates the view volume and
modifies its configuration.  The network/DNS side is an environment
parameter, and every external call made is recorded in a trace, so "fails
before any network call" is "the trace is empty".  (The Python call site
passes `resolve_host` only the hostname; the resolver's domain list is part
of the environment here.) -/

/-- A storage-array object as `refresh` uses it: only `instanceId` is read. -/
structure ScObject where
  instanceId : String
deriving DecidableEq, Repr

/-- One external call (DNS resolution or array request) made by `refresh`. -/
inductive ExtCall where
  | resolveHost (name : String)
  | searchServer (pattern : String)
  | searchServerMappings (serverId pattern : String)
  | createSnapshot (volumeId description expiration : String)
  | searchVolumeFolder (name : String)
  | createVolumeFolder (name : String)
  | viewVolume (snapshotId volumeName folderId : String)
  | modifyVolumeConfiguration
deriving DecidableEq, Repr

/-- The external world as `refresh` consumes it: the name resolver and the
Dell Storage Manager client, plus the wall clock reading used in the
generated volume name. -/
structure RefreshEnv where
  resolveHost : String → Except PyError (String × String)
  searchServer : String → List ScObject
  searchServerMappings : String → String → List ScObject
  snapshot : String → String → String → ScObject
  searchVolumeFolder : String → List ScObject
  createVolumeFolder : String → ScObject
  viewVolume : String → String → String → ScObject
  scId : String
  now : String

/-- The mountpoint-leaf computation of `utils.refresh`: take the part after
the last `/`, then after the last `-`, then after the last `_`. -/
def lastSegment (sep : Char) (s : String) : String :=
  String.mk ((s.data.reverse.takeWhile (fun c => decide (c ≠ sep))).reverse)

/-- `mount` as computed by `utils.refresh` from the mountpoint. -/
def mountLeaf (mountpoint : String) : String :=
  let m := mountpoint
  let m := if '/' ∈ m.data then lastSegment '/' m else m
  let m := if '-' ∈ m.data then lastSegment '-' m else m
  if '_' ∈ m.data then lastSegment '_' m else m

/-- `utils.refresh`, returning the result together with the trace of
external calls it performed, in order. -/
def refresh (env : RefreshEnv) (src_server dest_server volume environment
    mountpoint : String) : Except PyError Unit × List ExtCall :=
  -- canonicalize server names to lower case
  let src := pyLower src_server
  let dest := pyLower dest_server
  if src = dest then
    (.error (.compellentException "Source cannot be the same as destination"), [])
  else if strContains dest "prd" then
    (.error (.compellentException "We do not allow refreshing to production servers"), [])
  else
    -- ensure that provided source and target servers are resolvable
    match env.resolveHost src with
    | .error e => (.error e, [.resolveHost src])
    | .ok (src_short, _src_fqdn) =>
    match env.resolveHost dest with
    | .error e => (.error e, [.resolveHost src, .resolveHost dest])
    | .ok (_dest_short, _dest_fqdn) =>
      let t0 := [ExtCall.resolveHost src, ExtCall.resolveHost dest]
      let mount := mountLeaf mountpoint
      let vol_name := "vv_" ++ src_short ++ "_" ++ mount ++ "_" ++ environment
        ++ "_" ++ env.now
      -- retrieve source and destination server objects
      let src_matches := env.searchServer src_short
      let t1 := t0 ++ [ExtCall.searchServer src_short]
      match resolve_unique src_matches
          ("Ambiguous or non-existent server " ++ src) with
      | .error e => (.error e, t1)
      | .ok srcObj =>
      let dest_matches := env.searchServer _dest_short
      let t2 := t1 ++ [ExtCall.searchServer _dest_short]
      match resolve_unique dest_matches
          ("Ambiguous or non-existent server " ++ dest) with
      | .error e => (.error e, t2)
      | .ok _destObj =>
      -- retrieve source's volume object
      let src_id := srcObj.instanceId
      let src_mappings := env.searchServerMappings src_id volume
      let t3 := t2 ++ [ExtCall.searchServerMappings src_id volume]
      match resolve_unique src_mappings
          ("Ambiguous or non-existent volume " ++ volume) with
      | .error e => (.error e, t3)
      | .ok _src_volume =>
      -- take snapshot of volume, retain snapshot ID
      let src_snapshot := env.snapshot src_id "temp view vol snap" "15m"
      let t4 := t3 ++ [ExtCall.createSnapshot src_id "temp view vol snap" "15m"]
      -- retrieve view volume folder object (created when absent)
      let folder_name := "Linux/View Volumes/" ++ src_short ++ "/"
      let folders := env.searchVolumeFolder folder_name
      let t5 := t4 ++ [ExtCall.searchVolumeFolder folder_name]
      let (folder, t6) :=
        if folders.length = 0 then
          (env.createVolumeFolder folder_name,
            t5 ++ [ExtCall.createVolumeFolder folder_name])
        else (folders.headD ⟨""⟩, t5)
      -- create view volume from snapshot, then modify its configuration
      let _dest_volume := env.viewVolume src_snapshot.instanceId vol_name
        folder.instanceId
      let t7 := t6 ++ [ExtCall.viewVolume src_snapshot.instanceId vol_name
        folder.instanceId]
      (.ok (), t7 ++ [ExtCall.modifyVolumeConfiguration])

/-- **C7** (confirmed).  If the source and destination host names are equal
under case-insensitive comparison, or the lower-cased destination host name
contains the production-naming substring `"prd"`, then `refresh` fails with
a `CompellentException` and its external-call trace is empty: no array
request and no host-name resolution was attempted. -/
theorem refresh_precondition_gate (env : RefreshEnv)
    (src_server dest_server volume environment mountpoint : String)
    (h : pyLower src_server = pyLower dest_server
        ∨ strContains (pyLower dest_server) "prd" = true) :
    (∃ msg, refresh env src_server dest_server volume environment mountpoint =
      (.error (.compellentException msg), [])) := by
  by_cases h1 : pyLower src_server = pyLower dest_server
  · exact ⟨"Source cannot be the same as destination", by
      unfold refresh
      rw [if_pos h1]⟩
  · have h2 : strContains (pyLower dest_server) "prd" = true := h.resolve_left h1
    exact ⟨"We do not allow refreshing to production servers", by
      unfold refresh
      rw [if_neg h1, if_pos h2]⟩

/-- Witness for `refresh_precondition_gate`: the spec's scenario
`source=dbA, destination=dbA` (and also a `prd` destination), against a
concrete environment. -/
theorem refresh_precondition_gate_witness :
    (pyLower "dbA" = pyLower "dba"
      ∨ strContains (pyLower "dba") "prd" = true)
    ∧ (∃ msg, refresh
        { resolveHost := fun n => .ok (n, n ++ ".example.com"),
          searchServer := fun _ => [⟨"1"⟩],
          searchServerMappings := fun _ _ => [⟨"2"⟩],
          snapshot := fun _ _ _ => ⟨"3"⟩,
          searchVolumeFolder := fun _ => [⟨"4"⟩],
          createVolumeFolder := fun _ => ⟨"5"⟩,
          viewVolume := fun _ _ _ => ⟨"6"⟩,
          scId := "sc1", now := "2020-01-01T00:00:00" }
        "dbA" "dba" "oradata" "CSTST92" "/mnt/oradata" =
        (.error (.compellentException msg), [])) :=
  ⟨Or.inl (by decide),
    refresh_precondition_gate _ "dbA" "dba" "oradata" "CSTST92" "/mnt/oradata"
      (Or.inl (by decide))⟩

/-! ## `change_wwid_alias.update_config`

The rewrite loop processes the configuration file line by line
(`fileinput` keeps each line's trailing newline, so a file is a list of
line strings).  Per line it:
* counts an opening bracket if the line matches `^.*{` — since a line
  contains at most one newline, at its end, this is "the line contains
  `{`" — and a closing one for `^.*}` likewise;
* on leaving bracket level 0 inside the multipaths block, clears the
  block flag;
* if the line matches `^\s*multipaths`, prints it, regenerates one
  `multipath { wwid … alias … }` entry per table pair at the next tab
  level, and sets the block (and, in the `scripts/` version, the
  `multipath_configured`) flag;
* otherwise skips the line when inside the block and prints it verbatim
  when outside.

The `scripts/` version finally appends a fresh `multipaths { … }` block at
end-of-file when the keyword never matched and the table is non-empty. -/

/-- Does the string contain the character?  (`re.match('^.*X')` on a line.) -/
def stringHasChar (s : String) (c : Char) : Bool :=
  s.data.any (fun x => decide (x = c))

/-- `re_open = re.compile(r'^.*{')` applied with `re.match`. -/
def lineOpen (l : String) : Bool := stringHasChar l '\x7b'

/-- `re_close = re.compile(r'^.*}')` applied with `re.match`. -/
def lineClose (l : String) : Bool := stringHasChar l '\x7d'

/-- `re_multipaths = re.compile(r'^\s*multipaths')` applied with `re.match`. -/
def lineMultipaths (l : String) : Bool :=
  "multipaths".data.isPrefixOf (l.data.dropWhile pyIsSpace)

/-- `'\t' * t`. -/
def tabs (t : Nat) : String := String.mk (List.replicate t '\t')

/-- The four lines printed for one `wwid, alias` pair at tab level `t`
(each `print` ends the line with `\n`). -/
def genEntry (t : Nat) (p : String × String) : List String :=
  [tabs t ++ "multipath \x7b\n",
   tabs (t + 1) ++ ("wwid\t" ++ (p.1 ++ "\n")),
   tabs (t + 1) ++ ("alias\t" ++ (p.2 ++ "\n")),
   tabs t ++ "\x7d\n"]

/-- The lines printed for the whole table (`for wwid, alias in wwids.items()`). -/
def genEntries (w : List (String × String)) (t : Nat) : List String :=
  (w.map (genEntry t)).flatten

/-- The loop state of `update_config`: the `multipaths_block` and
`multipath_configured` flags and the `tab_level` / `bracket_level`
counters. -/
structure UCState where
  mpBlock : Bool
  configured : Bool
  tabLevel : Nat
  bracketLevel : Int
deriving DecidableEq, Repr

/-- One iteration of the `fileinput` loop of `update_config`: bracket
accounting, block-exit detection, then the three-way branch
(`re_multipaths` match / inside block / ordinary line), returning the new
state and the lines printed for this input line. -/
def stepLine (w : List (String × String)) (st : UCState) (line : String) :
    UCState × List String :=
  let b1 : Int := if lineOpen line then st.bracketLevel + 1 else st.bracketLevel
  let b2 : Int := if lineClose line then b1 - 1 else b1
  let blk : Bool :=
    if lineClose line ∧ st.mpBlock = true ∧ b1 - 1 = 0 then false else st.mpBlock
  if lineMultipaths line then
    ({ mpBlock := true, configured := true, tabLevel := st.tabLevel,
       bracketLevel := b2 },
     line :: genEntries w (st.tabLevel + 1))
  else if blk then
    ({ mpBlock := blk, configured := st.configured, tabLevel := st.tabLevel,
       bracketLevel := b2 }, [])
  else
    ({ mpBlock := blk, configured := st.configured, tabLevel := st.tabLevel,
       bracketLevel := b2 }, [line])

/-- Run the `update_config` loop over the file's lines, collecting the
printed output. -/
def runLines (w : List (String × String)) (st : UCState) :
    List String → UCState × List String
  | [] => (st, [])
  | l :: ls =>
      let s1 := stepLine w st l
      let s2 := runLines w s1.1 ls
      (s2.1, s1.2 ++ s2.2)

/-- `scripts/change_wwid_alias.update_config(filename, wwids)`: rewrite the
file's lines in place, and append a fresh `multipaths` block at end-of-file
when the keyword never matched and the table is non-empty. -/
def update_config (w : List (String × String)) (lines : List String) :
    List String :=
  let r := runLines w
    { mpBlock := false, configured := false, tabLevel := 0, bracketLevel := 0 }
    lines
  if ¬ r.1.configured ∧ w ≠ [] then
    r.2 ++ ["\n", "multipaths \x7b\n"] ++ genEntries w 1 ++ ["\x7d\n"]
  else r.2

/-- Net bracket contribution of one line. -/
def braceDelta (l : String) : Int :=
  (if lineOpen l then 1 else 0) - (if lineClose l then 1 else 0)

/-- Net bracket contribution of a list of lines. -/
def deltaSum (ls : List String) : Int := (ls.map braceDelta).sum

theorem deltaSum_nil : deltaSum [] = 0 := rfl

theorem deltaSum_cons (l : String) (ls : List String) :
    deltaSum (l :: ls) = braceDelta l + deltaSum ls := by
  simp [deltaSum]

theorem deltaSum_append (xs ys : List String) :
    deltaSum (xs ++ ys) = deltaSum xs + deltaSum ys := by
  simp [deltaSum]

theorem runLines_nil (w : List (String × String)) (st : UCState) :
    runLines w st [] = (st, []) := rfl

theorem runLines_cons (w : List (String × String)) (st : UCState)
    (l : String) (ls : List String) :
    runLines w st (l :: ls) =
      ((runLines w (stepLine w st l).1 ls).1,
        (stepLine w st l).2 ++ (runLines w (stepLine w st l).1 ls).2) := rfl

theorem runLines_append (w : List (String × String)) (xs ys : List String) :
    ∀ st : UCState, runLines w st (xs ++ ys) =
      ((runLines w (runLines w st xs).1 ys).1,
        (runLines w st xs).2 ++ (runLines w (runLines w st xs).1 ys).2) := by
  induction xs with
  | nil => intro st; simp [runLines]
  | cons x xs ih =>
      intro st
      simp only [List.cons_append, runLines_cons, ih, List.append_assoc]

/-- An ordinary line (outside the block, not the keyword) is printed
verbatim and only moves the bracket counter. -/
theorem stepLine_passthrough (w : List (String × String)) (st : UCState)
    (l : String) (hb : st.mpBlock = false) (hm : lineMultipaths l = false) :
    stepLine w st l =
      ({ mpBlock := false, configured := st.configured, tabLevel := st.tabLevel,
         bracketLevel := st.bracketLevel + braceDelta l }, [l]) := by
  unfold stepLine braceDelta
  simp only [hm, hb, Bool.false_eq_true, false_and, and_false, if_false]
  by_cases ho : lineOpen l <;> by_cases hc : lineClose l <;>
    simp [ho, hc] <;> omega

/-- A line inside the block that does not close it to level 0 and is not the
keyword is deleted. -/
theorem stepLine_skip (w : List (String × String)) (st : UCState) (l : String)
    (hb : st.mpBlock = true) (hm : lineMultipaths l = false)
    (hpos : 0 < st.bracketLevel + braceDelta l) :
    stepLine w st l =
      ({ mpBlock := true, configured := st.configured, tabLevel := st.tabLevel,
         bracketLevel := st.bracketLevel + braceDelta l }, []) := by
  unfold stepLine braceDelta
  unfold braceDelta at hpos
  simp only [hm, Bool.false_eq_true, if_false]
  by_cases ho : lineOpen l <;> by_cases hc : lineClose l <;>
    simp [ho, hc, hb] at hpos ⊢
  all_goals
    rw [if_neg (by omega)]
    simp
    omega

/-- The keyword line: printed, followed by the regenerated entries; both
flags are set. -/
theorem stepLine_multipaths (w : List (String × String)) (st : UCState)
    (l : String) (hm : lineMultipaths l = true) :
    stepLine w st l =
      ({ mpBlock := true, configured := true, tabLevel := st.tabLevel,
         bracketLevel := st.bracketLevel + braceDelta l },
       l :: genEntries w (st.tabLevel + 1)) := by
  unfold stepLine braceDelta
  simp only [hm, if_true]
  by_cases ho : lineOpen l <;> by_cases hc : lineClose l <;>
    simp [ho, hc] <;> omega

/-- The line that closes the block from level 1: block flag cleared, line
printed. -/
theorem stepLine_close (w : List (String × String)) (st : UCState)
    (l : String) (hb : st.mpBlock = true) (hbr : st.bracketLevel = 1)
    (hc : lineClose l = true) (ho : lineOpen l = false)
    (hm : lineMultipaths l = false) :
    stepLine w st l =
      ({ mpBlock := false, configured := st.configured, tabLevel := st.tabLevel,
         bracketLevel := 0 }, [l]) := by
  unfold stepLine
  simp [hm, hb, hbr, hc, ho]

theorem runLines_passthrough (w : List (String × String)) :
    ∀ (ls : List String) (st : UCState), st.mpBlock = false →
      (∀ l ∈ ls, lineMultipaths l = false) →
      runLines w st ls =
        ({ mpBlock := false, configured := st.configured,
           tabLevel := st.tabLevel,
           bracketLevel := st.bracketLevel + deltaSum ls }, ls) := by
  intro ls
  induction ls with
  | nil =>
      intro st hb _
      rw [runLines_nil, deltaSum_nil]
      cases st
      simp_all
  | cons l t ih =>
      intro st hb hm
      rw [runLines_cons,
        stepLine_passthrough w st l hb (hm l (List.mem_cons_self l t)),
        ih _ rfl (fun x hx => hm x (List.mem_cons_of_mem l hx))]
      simp [deltaSum_cons]
      omega

theorem runLines_skip (w : List (String × String)) :
    ∀ (ls : List String) (st : UCState), st.mpBlock = true →
      (∀ l ∈ ls, lineMultipaths l = false) →
      (∀ k, k ≤ ls.length → 0 < st.bracketLevel + deltaSum (ls.take k)) →
      runLines w st ls =
        ({ mpBlock := true, configured := st.configured,
           tabLevel := st.tabLevel,
           bracketLevel := st.bracketLevel + deltaSum ls }, []) := by
  intro ls
  induction ls with
  | nil =>
      intro st hb _ _
      rw [runLines_nil, deltaSum_nil]
      cases st
      simp_all
  | cons l t ih =>
      intro st hb hm hk
      have h1 : 0 < st.bracketLevel + braceDelta l := by
        have := hk 1 (by simp)
        simpa [deltaSum_cons, deltaSum_nil] using this
      rw [runLines_cons,
        stepLine_skip w st l hb (hm l (List.mem_cons_self l t)) h1,
        ih _ rfl (fun x hx => hm x (List.mem_cons_of_mem l hx)) ?_]
      · simp [deltaSum_cons]
        omega
      · intro k hkle
        have := hk (k + 1) (by simpa using hkle)
        simpa [deltaSum_cons, add_assoc] using this

theorem stringHasChar_append (s t : String) (c : Char) :
    stringHasChar (s ++ t) c = (stringHasChar s c || stringHasChar t c) := by
  unfold stringHasChar
  rw [String.data_append, List.any_append]

theorem stringHasChar_tabs (t : Nat) (c : Char) (h : c ≠ '\t') :
    stringHasChar (tabs t) c = false := by
  unfold stringHasChar tabs
  show (List.replicate t '\t').any _ = false
  induction t with
  | zero => rfl
  | succ t ih =>
      rw [List.replicate_succ, List.any_cons, ih, Bool.or_false]
      exact decide_eq_false (fun hh => h hh.symm)

theorem dropWhile_replicate_tab (t : Nat) (cs : List Char) :
    (List.replicate t '\t' ++ cs).dropWhile pyIsSpace = cs.dropWhile pyIsSpace := by
  induction t with
  | zero => simp
  | succ t ih =>
      rw [List.replicate_succ, List.cons_append, List.dropWhile_cons]
      rw [if_pos (by decide : pyIsSpace '\t' = true)]
      exact ih

theorem lineMultipaths_tabs (t : Nat) (s : String) :
    lineMultipaths (tabs t ++ s) = lineMultipaths s := by
  unfold lineMultipaths tabs
  rw [String.data_append]
  rw [show (String.mk (List.replicate t '\t')).data = List.replicate t '\t'
    from rfl]
  rw [dropWhile_replicate_tab]

theorem lineMultipaths_cons_ne (c : Char) (cs : List Char)
    (hc1 : pyIsSpace c = false) (hc2 : ('m' == c) = false) :
    "multipaths".data.isPrefixOf ((c :: cs).dropWhile pyIsSpace) = false := by
  rw [List.dropWhile_cons, if_neg (by simp [hc1])]
  show ('m' == c && _) = false
  rw [hc2, Bool.false_and]

theorem lineMultipaths_wwid (t : Nat) (x : String) :
    lineMultipaths (tabs t ++ ("wwid\t" ++ (x ++ "\n"))) = false := by
  rw [lineMultipaths_tabs]
  unfold lineMultipaths
  rw [String.data_append]
  rw [show ("wwid\t" : String).data = ['w', 'w', 'i', 'd', '\t'] from rfl]
  simp only [List.cons_append, List.nil_append]
  exact lineMultipaths_cons_ne 'w' _ (by decide) (by decide)

theorem lineMultipaths_alias (t : Nat) (x : String) :
    lineMultipaths (tabs t ++ ("alias\t" ++ (x ++ "\n"))) = false := by
  rw [lineMultipaths_tabs]
  unfold lineMultipaths
  rw [String.data_append]
  rw [show ("alias\t" : String).data = ['a', 'l', 'i', 'a', 's', '\t'] from rfl]
  simp only [List.cons_append, List.nil_append]
  exact lineMultipaths_cons_ne 'a' _ (by decide) (by decide)

theorem lineMultipaths_entry_open (t : Nat) :
    lineMultipaths (tabs t ++ "multipath \x7b\n") = false := by
  rw [lineMultipaths_tabs]
  rfl

theorem lineMultipaths_entry_close (t : Nat) :
    lineMultipaths (tabs t ++ "\x7d\n") = false := by
  rw [lineMultipaths_tabs]
  rfl

theorem genEntry_no_multipaths (t : Nat) (p : String × String) :
    ∀ l ∈ genEntry t p, lineMultipaths l = false := by
  intro l hl
  simp only [genEntry, List.mem_cons, List.not_mem_nil, or_false] at hl
  rcases hl with rfl | rfl | rfl | rfl
  · exact lineMultipaths_entry_open t
  · exact lineMultipaths_wwid (t + 1) p.1
  · exact lineMultipaths_alias (t + 1) p.2
  · exact lineMultipaths_entry_close t

theorem genEntries_no_multipaths (w : List (String × String)) (t : Nat) :
    ∀ l ∈ genEntries w t, lineMultipaths l = false := by
  intro l hl
  unfold genEntries at hl
  obtain ⟨ls, hls, hmem⟩ := List.mem_flatten.mp hl
  obtain ⟨p, _, rfl⟩ := List.mem_map.mp hls
  exact genEntry_no_multipaths t p l hmem

theorem braceDelta_entry_open (t : Nat) :
    braceDelta (tabs t ++ "multipath \x7b\n") = 1 := by
  unfold braceDelta lineOpen lineClose
  rw [stringHasChar_append, stringHasChar_append,
    stringHasChar_tabs _ _ (by decide), stringHasChar_tabs _ _ (by decide)]
  rw [show stringHasChar "multipath \x7b\n" '\x7b' = true from rfl,
    show stringHasChar "multipath \x7b\n" '\x7d' = false from rfl]
  rfl

theorem braceDelta_entry_close (t : Nat) :
    braceDelta (tabs t ++ "\x7d\n") = -1 := by
  unfold braceDelta lineOpen lineClose
  rw [stringHasChar_append, stringHasChar_append,
    stringHasChar_tabs _ _ (by decide), stringHasChar_tabs _ _ (by decide)]
  rw [show stringHasChar "\x7d\n" '\x7b' = false from rfl,
    show stringHasChar "\x7d\n" '\x7d' = true from rfl]
  rfl

theorem braceDelta_entry_mid (t : Nat) (pre x : String)
    (hpo : stringHasChar pre '\x7b' = false) (hpc : stringHasChar pre '\x7d' = false)
    (hxo : stringHasChar x '\x7b' = false) (hxc : stringHasChar x '\x7d' = false) :
    braceDelta (tabs t ++ (pre ++ (x ++ "\n"))) = 0 := by
  unfold braceDelta lineOpen lineClose
  rw [stringHasChar_append, stringHasChar_append, stringHasChar_append,
    stringHasChar_append, stringHasChar_append, stringHasChar_append,
    stringHasChar_tabs _ _ (by decide), stringHasChar_tabs _ _ (by decide),
    hpo, hpc, hxo, hxc]
  rfl

/-- The wwids and aliases written into the configuration contain no brace
characters (they are parsed from `\w+` regex groups upstream). -/
def BraceFree (w : List (String × String)) : Prop :=
  ∀ p ∈ w, stringHasChar p.1 '\x7b' = false ∧ stringHasChar p.1 '\x7d' = false
    ∧ stringHasChar p.2 '\x7b' = false ∧ stringHasChar p.2 '\x7d' = false

instance : DecidablePred BraceFree := fun w =>
  List.decidableBAll _ w

theorem deltaSum_genEntry (t : Nat) (p : String × String)
    (h : stringHasChar p.1 '\x7b' = false ∧ stringHasChar p.1 '\x7d' = false
      ∧ stringHasChar p.2 '\x7b' = false ∧ stringHasChar p.2 '\x7d' = false) :
    deltaSum (genEntry t p) = 0 := by
  obtain ⟨h1, h2, h3, h4⟩ := h
  unfold genEntry
  rw [deltaSum_cons, deltaSum_cons, deltaSum_cons, deltaSum_cons, deltaSum_nil,
    braceDelta_entry_open, braceDelta_entry_close,
    braceDelta_entry_mid _ _ _ (by rfl) (by rfl) h1 h2,
    braceDelta_entry_mid _ _ _ (by rfl) (by rfl) h3 h4]
  ring

theorem deltaSum_genEntries (w : List (String × String)) (t : Nat)
    (hbf : BraceFree w) : deltaSum (genEntries w t) = 0 := by
  induction w with
  | nil => rfl
  | cons p rest ih =>
      unfold genEntries
      rw [List.map_cons, List.flatten_cons, deltaSum_append]
      rw [deltaSum_genEntry t p (hbf p (List.mem_cons_self p rest))]
      have := ih (fun q hq => hbf q (List.mem_cons_of_mem p hq))
      unfold genEntries at this
      rw [this]
      ring

theorem deltaSum_genEntries_take (w : List (String × String)) (t : Nat)
    (hbf : BraceFree w) :
    ∀ k, k ≤ (genEntries w t).length → 0 ≤ deltaSum ((genEntries w t).take k) := by
  induction w with
  | nil =>
      intro k hk
      simp [genEntries] at hk
      simp [hk, genEntries, deltaSum_nil]
  | cons p rest ih =>
      intro k hk
      obtain ⟨h1, h2, h3, h4⟩ := hbf p (List.mem_cons_self p rest)
      have hbf' : BraceFree rest := fun q hq => hbf q (List.mem_cons_of_mem p hq)
      have hgen : genEntries (p :: rest) t = genEntry t p ++ genEntries rest t := by
        unfold genEntries
        rw [List.map_cons, List.flatten_cons]
      rw [hgen] at hk ⊢
      have hlen : (genEntry t p).length = 4 := rfl
      by_cases hk4 : k ≤ 4
      · rw [List.take_append_of_le_length (by omega)]
        interval_cases k
        · simp [deltaSum_nil]
        · unfold genEntry
          simp only [List.take_succ_cons, List.take_zero]
          rw [deltaSum_cons, deltaSum_nil, braceDelta_entry_open]
          omega
        · unfold genEntry
          simp only [List.take_succ_cons, List.take_zero]
          rw [deltaSum_cons, deltaSum_cons, deltaSum_nil, braceDelta_entry_open,
            braceDelta_entry_mid _ _ _ (by rfl) (by rfl) h1 h2]
          omega
        · unfold genEntry
          simp only [List.take_succ_cons, List.take_zero]
          rw [deltaSum_cons, deltaSum_cons, deltaSum_cons, deltaSum_nil,
            braceDelta_entry_open,
            braceDelta_entry_mid _ _ _ (by rfl) (by rfl) h1 h2,
            braceDelta_entry_mid _ _ _ (by rfl) (by rfl) h3 h4]
          omega
        · unfold genEntry
          simp only [List.take_succ_cons, List.take_zero]
          rw [deltaSum_cons, deltaSum_cons, deltaSum_cons, deltaSum_cons,
            deltaSum_nil, braceDelta_entry_open,
            braceDelta_entry_mid _ _ _ (by rfl) (by rfl) h1 h2,
            braceDelta_entry_mid _ _ _ (by rfl) (by rfl) h3 h4,
            braceDelta_entry_close]
          omega
      · rw [List.take_append_eq_append_take, deltaSum_append]
        rw [List.take_of_length_le (by omega), deltaSum_genEntry t p ⟨h1, h2, h3, h4⟩]
        rw [hlen]
        have := ih hbf' (k - 4) (by
          rw [List.length_append, hlen] at hk
          omega)
        omega

/-- A configuration file split around one well-formed top-level `multipaths`
block: `pre` lines before the keyword line, the keyword line `mline`, the
block body, the closing line `cline`, and the trailing lines `post`. -/
structure MultipathsConf where
  pre : List String
  mline : String
  body : List String
  cline : String
  post : List String

/-- The file's lines. -/
def MultipathsConf.lines (f : MultipathsConf) : List String :=
  f.pre ++ (f.mline :: (f.body ++ (f.cline :: f.post)))

/-- Well-formedness of the split: no keyword match outside `mline`; the
lines before the block balance their brackets (the keyword is at top
level); the keyword line opens the block's bracket itself; the body keeps
the running bracket level positive and the closing line returns it to 0. -/
def WFConf (f : MultipathsConf) : Prop :=
  (∀ l ∈ f.pre, lineMultipaths l = false)
  ∧ deltaSum f.pre = 0
  ∧ lineMultipaths f.mline = true
  ∧ lineOpen f.mline = true
  ∧ lineClose f.mline = false
  ∧ (∀ l ∈ f.body, lineMultipaths l = false)
  ∧ (∀ k, k ≤ f.body.length → 0 ≤ deltaSum (f.body.take k))
  ∧ deltaSum f.body = 0
  ∧ lineClose f.cline = true
  ∧ lineOpen f.cline = false
  ∧ lineMultipaths f.cline = false
  ∧ (∀ l ∈ f.post, lineMultipaths l = false)

instance instDecidableWFConf (f : MultipathsConf) : Decidable (WFConf f) := by
  unfold WFConf
  infer_instance

theorem runLines_wf (w : List (String × String)) (f : MultipathsConf)
    (hwf : WFConf f) :
    runLines w ⟨false, false, 0, 0⟩ f.lines =
      (⟨false, true, 0, 0 + deltaSum f.post⟩,
       f.pre ++ (f.mline :: (genEntries w 1 ++ (f.cline :: f.post)))) := by
  obtain ⟨hpre, hpre0, hm, hmo, hmc, hbody, hbodyk, hbody0, hcc, hco, hcm,
    hpost⟩ := hwf
  have hdm : braceDelta f.mline = 1 := by
    unfold braceDelta
    rw [hmo, hmc]
    rfl
  have h1 : runLines w ⟨false, false, 0, 0⟩ f.pre =
      ((⟨false, false, 0, 0⟩ : UCState), f.pre) := by
    rw [runLines_passthrough w f.pre _ rfl hpre]
    rw [hpre0]
    norm_num
  have h3 : runLines w ⟨true, true, 0, 1⟩ f.body =
      ((⟨true, true, 0, 1⟩ : UCState), []) := by
    rw [runLines_skip w f.body _ rfl hbody ?_]
    · rw [hbody0]
      norm_num
    · intro k hk
      have := hbodyk k hk
      dsimp only
      omega
  have h4 : stepLine w ⟨true, true, 0, 1⟩ f.cline =
      ((⟨false, true, 0, 0⟩ : UCState), [f.cline]) :=
    stepLine_close w _ f.cline rfl rfl hcc hco hcm
  have h5 : runLines w ⟨false, true, 0, 0⟩ f.post =
      ((⟨false, true, 0, 0 + deltaSum f.post⟩ : UCState), f.post) :=
    runLines_passthrough w f.post _ rfl hpost
  have h2 : stepLine w ⟨false, false, 0, 0⟩ f.mline =
      ((⟨true, true, 0, 1⟩ : UCState), f.mline :: genEntries w 1) := by
    rw [stepLine_multipaths w _ f.mline hm]
    rw [show (0 : Int) + braceDelta f.mline = 1 by rw [hdm]; norm_num]
  unfold MultipathsConf.lines
  rw [runLines_append, h1]
  dsimp only
  rw [runLines_cons, h2]
  dsimp only
  rw [runLines_append, h3]
  dsimp only
  rw [runLines_cons, h4]
  dsimp only
  rw [h5]
  dsimp only
  simp [List.append_assoc]

theorem update_config_wf_eval (w : List (String × String))
    (f : MultipathsConf) (hwf : WFConf f) :
    update_config w f.lines =
      f.pre ++ (f.mline :: (genEntries w 1 ++ (f.cline :: f.post))) := by
  unfold update_config
  rw [runLines_wf w f hwf]
  simp

theorem wf_regenerated (w : List (String × String)) (f : MultipathsConf)
    (hwf : WFConf f) (hbf : BraceFree w) :
    WFConf ⟨f.pre, f.mline, genEntries w 1, f.cline, f.post⟩ := by
  obtain ⟨hpre, hpre0, hm, hmo, hmc, _, _, _, hcc, hco, hcm, hpost⟩ := hwf
  exact ⟨hpre, hpre0, hm, hmo, hmc, genEntries_no_multipaths w 1,
    deltaSum_genEntries_take w 1 hbf, deltaSum_genEntries w 1 hbf,
    hcc, hco, hcm, hpost⟩

/-- **C3** (amended).  For every configuration file whose `multipaths`
block is well-formed — the keyword line sits at top-level bracket depth
and itself opens the block's brace, the body keeps the bracket depth
positive until a single closing line, and no other line starts with the
keyword — and every table whose wwids and aliases contain no brace
characters, `update_config` run twice with the same table produces
identical contents both times, and every line outside the multipaths block
(the lines before it, its closing line, and the lines after it) is
preserved byte-for-byte by each run.  (On a file where the keyword and its
opening brace sit on separate lines the second run differs from the first;
see `update_config_not_idempotent_on_split_brace`.) -/
theorem update_config_idempotent (w : List (String × String))
    (f : MultipathsConf) (hwf : WFConf f) (hbf : BraceFree w) :
    update_config w f.lines =
      f.pre ++ (f.mline :: (genEntries w 1 ++ (f.cline :: f.post)))
    ∧ update_config w (update_config w f.lines) = update_config w f.lines := by
  have h1 := update_config_wf_eval w f hwf
  refine ⟨h1, ?_⟩
  have h2 := update_config_wf_eval w
    ⟨f.pre, f.mline, genEntries w 1, f.cline, f.post⟩
    (wf_regenerated w f hwf hbf)
  rw [h1]
  exact h2

/-- Witness for `update_config_idempotent` on a concrete well-formed
configuration file and table. -/
theorem update_config_idempotent_witness :
    WFConf ⟨["# multipath.conf\n"], "multipaths \x7b\n",
        ["\tmultipath \x7b\n", "\t\twwid\t360old\n", "\t\talias\toldvol\n",
         "\t\x7d\n"], "\x7d\n", ["# end\n"]⟩
    ∧ BraceFree [("36000d31000d5f00000000000000000a5", "testvol1")]
    ∧ update_config [("36000d31000d5f00000000000000000a5", "testvol1")]
        (update_config [("36000d31000d5f00000000000000000a5", "testvol1")]
          (MultipathsConf.lines ⟨["# multipath.conf\n"], "multipaths \x7b\n",
            ["\tmultipath \x7b\n", "\t\twwid\t360old\n", "\t\talias\toldvol\n",
             "\t\x7d\n"], "\x7d\n", ["# end\n"]⟩)) =
      update_config [("36000d31000d5f00000000000000000a5", "testvol1")]
        (MultipathsConf.lines ⟨["# multipath.conf\n"], "multipaths \x7b\n",
          ["\tmultipath \x7b\n", "\t\twwid\t360old\n", "\t\talias\toldvol\n",
           "\t\x7d\n"], "\x7d\n", ["# end\n"]⟩) :=
  ⟨by decide, by decide,
    (update_config_idempotent [("36000d31000d5f00000000000000000a5", "testvol1")]
      ⟨["# multipath.conf\n"], "multipaths \x7b\n",
        ["\tmultipath \x7b\n", "\t\twwid\t360old\n", "\t\talias\toldvol\n",
         "\t\x7d\n"], "\x7d\n", ["# end\n"]⟩ (by decide) (by decide)).2⟩

/-- **C3** (counterexample to the claim as stated).  On the file
`multipaths\n{\n}\n` — the keyword and its opening brace on separate
lines — the second run of `update_config` does not reproduce the first
run's output (the first run deletes the lone `{` line; the second then
mistakes the first regenerated entry's `\t}` for the end of the block and
keeps a stray `\t}` line). -/
theorem update_config_not_idempotent_on_split_brace :
    update_config [("w1", "a1")]
        (update_config [("w1", "a1")] ["multipaths\n", "\x7b\n", "\x7d\n"]) ≠
      update_config [("w1", "a1")] ["multipaths\n", "\x7b\n", "\x7d\n"] := by
  decide

/-- **C8** (confirmed).  For every configuration file none of whose lines
matches the `multipaths` keyword and every non-empty table,
`update_config` appends a newly opened `multipaths` block at end-of-file —
one `multipath { wwid … alias … }` entry per table pair — and every
pre-existing line is preserved. -/
theorem update_config_appends_when_absent (w : List (String × String))
    (lines : List String) (h1 : ∀ l ∈ lines, lineMultipaths l = false)
    (h2 : w ≠ []) :
    update_config w lines =
      lines ++ ["\n", "multipaths \x7b\n"] ++ genEntries w 1 ++ ["\x7d\n"] := by
  unfold update_config
  rw [runLines_passthrough w lines _ rfl h1]
  simp [h2]

/-- Witness for `update_config_appends_when_absent` on a one-line file and
a one-pair table. -/
theorem update_config_appends_when_absent_witness :
    (∀ l ∈ ["# devices\n"], lineMultipaths l = false)
    ∧ ([("36000d31000d5f00000000000000000a5", "testvol1")]
        : List (String × String)) ≠ []
    ∧ update_config [("36000d31000d5f00000000000000000a5", "testvol1")]
        ["# devices\n"] =
      ["# devices\n"] ++ ["\n", "multipaths \x7b\n"]
        ++ genEntries [("36000d31000d5f00000000000000000a5", "testvol1")] 1
        ++ ["\x7d\n"] :=
  ⟨by decide, by decide,
    update_config_appends_when_absent _ _ (by decide) (by decide)⟩

/-! ## `scripts/delete_devices.py`

`disk_associations` probes live host state (`multipath -l -v 1`,
`multipath -ll <alias>`, `findmnt`, `pvs`) and builds one dict mapping each
multipath alias to its set of member disks, plus a `'protected'` entry
holding every device that must not be deleted.  `delete_devices` then
expands the selection, subtracts the protected set, and acts.  The probe
outputs are the `HostState` inputs here, and the parsing of their lines
follows the script's regexes. -/

/-- Require at least one character of the class, then drop the maximal run
(a greedy `X+` whose class is disjoint from what follows). -/
def chomp1 (p : Char → Bool) (cs : List Char) : Option (List Char) :=
  if cs.takeWhile p = [] then none else some (cs.dropWhile p)

/-- Consume one expected character. -/
def expectChar (c : Char) : List Char → Option (List Char)
  | x :: rest => if x = c then some rest else none
  | [] => none

/-- `re.match` with
`r'\s+[|\x60]-\s+\d+:\d+:\d+:\d+\s+(?P<disk>\w+)\s+\d+:\d+'` (the member
lines of `multipath -ll` output; `\x60` is the backquote), returning the
`disk` group. -/
def parseMemberLine (l : String) : Option String := do
  let cs ← chomp1 pyIsSpace l.data
  let cs ← (match cs with
    | x :: rest =>
        if x = '|' ∨ x = Char.ofNat 96 then some rest else none
    | [] => none)
  let cs ← expectChar '-' cs
  let cs ← chomp1 pyIsSpace cs
  let cs ← chomp1 isDigitChar cs
  let cs ← expectChar ':' cs
  let cs ← chomp1 isDigitChar cs
  let cs ← expectChar ':' cs
  let cs ← chomp1 isDigitChar cs
  let cs ← expectChar ':' cs
  let cs ← chomp1 isDigitChar cs
  let cs ← chomp1 pyIsSpace cs
  let disk := cs.takeWhile isWordChar
  if disk = [] then none
  else
    let cs := cs.dropWhile isWordChar
    let cs ← chomp1 pyIsSpace cs
    let cs ← chomp1 isDigitChar cs
    let cs ← expectChar ':' cs
    let _ ← chomp1 isDigitChar cs
    pure (String.mk disk)

/-- `re.match` with
`r'(/dev/(?!mapper)(?P<disk>[a-zA-Z]+)\d*)|(/dev/mapper/(?P<alias>\w+))'`:
`.inl disk` for a plain block device, `.inr alias` for a mapper device. -/
def parseMountedSource (device : String) : Option (Sum String String) :=
  if "/dev/".data.isPrefixOf device.data then
    let rest := device.data.drop 5
    if "mapper".data.isPrefixOf rest then
      -- first alternative's lookahead fails; try `/dev/mapper/(?P<alias>\w+)`
      if "/dev/mapper/".data.isPrefixOf device.data then
        let al := (device.data.drop 12).takeWhile isWordChar
        if al = [] then none else some (.inr (String.mk al))
      else none
    else
      let disk := rest.takeWhile isAsciiAlpha
      if disk = [] then none else some (.inl (String.mk disk))
  else none

/-- `re.match` with `r'/dev/(?P<disk>[a-zA-Z]+)\d*'` (the `pvs` lines). -/
def parseLvmSource (disk : String) : Option String :=
  if "/dev/".data.isPrefixOf disk.data then
    let d := (disk.data.drop 5).takeWhile isAsciiAlpha
    if d = [] then none else some (String.mk d)
  else none

/-- The live host state `disk_associations` probes: the alias listing of
`multipath -l -v 1`, the per-alias `multipath -ll` output, the `findmnt`
SOURCE listing, and the `pvs` pv_name listing (each as output lines). -/
structure HostState where
  multipathList : List String
  multipathInfo : String → List String
  findmntOut : List String
  pvsOut : List String

/-- The member disks parsed from `multipath -ll <device>`. -/
def memberDisks (hs : HostState) (device : String) : PySet :=
  (hs.multipathInfo device).foldl
    (fun s line =>
      match parseMemberLine line with
      | some disk => pyInsert disk s
      | none => s) []

/-- `delete_devices.disk_associations()`: the dict mapping each multipath
alias to its member-disk set, with a `'protected'` entry collecting every
mounted device (and, for a mounted mapper alias, its member disks) and
every LVM physical volume. -/
def disk_associations (hs : HostState) : PyDict PySet :=
  let d := hs.multipathList.foldl
    (fun d line =>
      let device := pyStrip line
      dictSet device (memberDisks hs device) d) []
  let d := dictSet "protected" [] d
  let d := hs.findmntOut.foldl
    (fun d line =>
      let device := pyStrip line
      match parseMountedSource device with
      | some (.inl disk) =>
          dictSet "protected" (pyInsert disk (dictGetD "protected" d [])) d
      | some (.inr al) =>
          let p := pyInsert al (dictGetD "protected" d [])
          let p := if dictMem al d then pyUnion p (dictGetD al d []) else p
          dictSet "protected" p d
      | none => d) d
  hs.pvsOut.foldl
    (fun d line =>
      let disk := pyStrip line
      match parseLvmSource disk with
      | some g => dictSet "protected" (pyInsert g (dictGetD "protected" d [])) d
      | none => d) d

/-- The protected set computed by `disk_associations`. -/
def protectedDevices (hs : HostState) : PySet :=
  dictGetD "protected" (disk_associations hs) []

/-- The expansion loop of `delete_devices`: every originally requested disk
that is a member of a multipath group adds that group's alias and all its
member disks to the selection. -/
def expandSelection (G : PyDict PySet) (disks0 aliases0 : PySet) :
    PySet × PySet :=
  disks0.foldl
    (fun st disk =>
      G.foldl
        (fun st g =>
          if disk ∈ g.2 then (pyUnion st.1 g.2, pyInsert g.1 st.2) else st)
        st)
    (disks0, aliases0)

/-- The final loop of `delete_devices`: `disks |= device_groups[alias]` for
every selected alias (a `KeyError` if an alias is not in the dict). -/
def regatherDisks (G : PyDict PySet) (aliases disks : PySet) :
    Except PyError PySet :=
  aliases.foldlM
    (fun ds al =>
      match dictGet? al G with
      | some g => Except.ok (pyUnion ds g)
      | none => Except.error (.keyError al))
    disks

/-- `delete_devices(disks, aliases)` up to the point where it acts: the
computed `(aliases to flush, disks to delete, refused protected devices)`.
The refusal set is what the script reports (when verbose) as
`selected_protected_devices`. -/
def delete_devices_core (device_groups : PyDict PySet)
    (protected_devices : PySet) (disks0 aliases0 : PySet) :
    Except PyError (PySet × PySet × PySet) := do
  let st := expandSelection device_groups disks0 aliases0
  let disks1 := st.1
  let aliases1 := st.2
  let selected := pyUnion (pyInter protected_devices disks1)
    (pyInter protected_devices aliases1)
  -- the script subtracts only when something protected was selected; both
  -- subtractions sit under the same test
  let aliases2 := if selected ≠ [] then pyDiff aliases1 protected_devices
    else aliases1
  let disks2 := if selected ≠ [] then pyDiff disks1 protected_devices
    else disks1
  let disks3 ← regatherDisks device_groups aliases2 disks2
  pure (aliases2, disks3, selected)

/-- `delete_devices(disks, aliases)` up to the point where it acts:
retrieve the associations, pop the protected set, then compute the plan. -/
def delete_devices_plan (hs : HostState) (disks0 aliases0 : PySet) :
    Except PyError (PySet × PySet × PySet) :=
  let device_groups0 := disk_associations hs
  delete_devices_core (dictPop "protected" device_groups0)
    (dictGetD "protected" device_groups0 []) disks0 aliases0

theorem expandSelection_mem_aliases (d : String) :
    ∀ (L : PyDict PySet) (st : PySet × PySet) (x : String), x ∈ st.2 →
      x ∈ (L.foldl (fun st g =>
        if d ∈ g.2 then (pyUnion st.1 g.2, pyInsert g.1 st.2) else st) st).2 := by
  intro L
  induction L with
  | nil => intro st x hx; exact hx
  | cons g t ih =>
      intro st x hx
      rw [List.foldl_cons]
      by_cases hg : d ∈ g.2
      · rw [if_pos hg]
        exact ih _ x (mem_pyInsert.mpr (Or.inr hx))
      · rw [if_neg hg]
        exact ih _ x hx

theorem expandSelection_adds_alias (d : String) :
    ∀ (L : PyDict PySet) (st : PySet × PySet) (a : String) (s : PySet),
      (a, s) ∈ L → d ∈ s →
      a ∈ (L.foldl (fun st g =>
        if d ∈ g.2 then (pyUnion st.1 g.2, pyInsert g.1 st.2) else st) st).2 := by
  intro L
  induction L with
  | nil => intro st a s h; simp at h
  | cons g t ih =>
      intro st a s hmem hd
      rw [List.foldl_cons]
      rcases List.mem_cons.mp hmem with h | h
      · have hg : d ∈ g.2 := by rw [← h]; exact hd
        rw [if_pos hg]
        have ha1 : a ∈ pyInsert g.1 st.2 := by
          rw [show a = g.1 by rw [← h]]
          exact mem_pyInsert.mpr (Or.inl rfl)
        exact expandSelection_mem_aliases d t _ a ha1
      · by_cases hg : d ∈ g.2
        · rw [if_pos hg]; exact ih _ a s h hd
        · rw [if_neg hg]; exact ih _ a s h hd

theorem expandSelection_aliases_sub (d : String) :
    ∀ (L : PyDict PySet) (st : PySet × PySet) (x : String),
      x ∈ (L.foldl (fun st g =>
        if d ∈ g.2 then (pyUnion st.1 g.2, pyInsert g.1 st.2) else st) st).2 →
      x ∈ st.2 ∨ ∃ v, (x, v) ∈ L := by
  intro L
  induction L with
  | nil => intro st x hx; exact Or.inl hx
  | cons g t ih =>
      intro st x hx
      rw [List.foldl_cons] at hx
      by_cases hg : d ∈ g.2
      · rw [if_pos hg] at hx
        rcases ih _ x hx with h | ⟨v, hv⟩
        · rcases mem_pyInsert.mp h with rfl | h'
          · right
            exact ⟨g.2, by simp⟩
          · exact Or.inl h'
        · exact Or.inr ⟨v, List.mem_cons_of_mem g hv⟩
      · rw [if_neg hg] at hx
        rcases ih _ x hx with h | ⟨v, hv⟩
        · exact Or.inl h
        · exact Or.inr ⟨v, List.mem_cons_of_mem g hv⟩

theorem regatherDisks_ok (G : PyDict PySet) :
    ∀ (l ds : PySet), (∀ x ∈ l, (dictGet? x G).isSome = true) →
      ∃ r, regatherDisks G l ds = .ok r
        ∧ (∀ y ∈ ds, y ∈ r)
        ∧ (∀ x ∈ l, ∀ v, dictGet? x G = some v → ∀ y ∈ v, y ∈ r) := by
  intro l
  induction l with
  | nil =>
      intro ds _
      exact ⟨ds, rfl, fun y hy => hy, by simp⟩
  | cons x t ih =>
      intro ds h
      have hx := h x (List.mem_cons_self x t)
      obtain ⟨gx, hgx⟩ := Option.isSome_iff_exists.mp hx
      obtain ⟨r, hr, hds, hv⟩ :=
        ih (pyUnion ds gx) (fun y hy => h y (List.mem_cons_of_mem x hy))
      refine ⟨r, ?_, ?_, ?_⟩
      · unfold regatherDisks at hr ⊢
        rw [List.foldlM_cons, hgx]
        simpa using hr
      · intro y hy
        exact hds y (mem_pyUnion.mpr (Or.inl hy))
      · intro z hz v hvz y hy
        rcases List.mem_cons.mp hz with rfl | hz'
        · have hvgx : v = gx := by
            rw [hvz] at hgx
            exact Option.some.inj hgx
          exact hds y (mem_pyUnion.mpr (Or.inr (hvgx ▸ hy)))
        · exact hv z hz' v hvz y hy

/-- The plan computation on an abstract alias→members dict and protected
set: selecting a single member disk `d` of alias `a`, when `a` itself is
not protected, always yields a successful plan whose flush set contains
`a` and whose delete set contains every member disk of `a`. -/
theorem delete_devices_core_expands (G : PyDict PySet) (prot : PySet)
    (d a : String) (s : PySet) (ha : dictGet? a G = some s) (hd : d ∈ s)
    (hprot : a ∉ prot) :
    ∃ flush del blocked,
      delete_devices_core G prot [d] [] = .ok (flush, del, blocked)
      ∧ a ∈ flush ∧ ∀ x ∈ s, x ∈ del := by
  have hGa : (a, s) ∈ G := dictGet?_mem ha
  have hfold : expandSelection G [d] [] =
      G.foldl (fun st g =>
        if d ∈ g.2 then (pyUnion st.1 g.2, pyInsert g.1 st.2) else st)
        ([d], []) := rfl
  rcases hE : expandSelection G [d] [] with ⟨disks1, aliases1⟩
  have haA1 : a ∈ aliases1 := by
    have h := expandSelection_adds_alias d G ([d], []) a s hGa hd
    rw [← hfold, hE] at h
    exact h
  have hsome1 : ∀ x ∈ aliases1, (dictGet? x G).isSome = true := by
    intro x hx
    have h := expandSelection_aliases_sub d G ([d], []) x
      (by rw [← hfold, hE]; exact hx)
    rcases h with h | ⟨v, hv⟩
    · simp at h
    · exact dictGet?_isSome_of_mem hv
  by_cases hsel : pyUnion (pyInter prot disks1) (pyInter prot aliases1) ≠ []
  · obtain ⟨r, hr, _, hv⟩ := regatherDisks_ok G (pyDiff aliases1 prot)
      (pyDiff disks1 prot) (fun x hx => hsome1 x (mem_pyDiff.mp hx).1)
    refine ⟨pyDiff aliases1 prot, r,
      pyUnion (pyInter prot disks1) (pyInter prot aliases1), ?_,
      mem_pyDiff.mpr ⟨haA1, hprot⟩, ?_⟩
    · simp only [delete_devices_core]
      rw [hE]
      simp only [if_pos hsel]
      rw [hr]
      rfl
    · intro x hx
      exact hv a (mem_pyDiff.mpr ⟨haA1, hprot⟩) s ha x hx
  · obtain ⟨r, hr, _, hv⟩ := regatherDisks_ok G aliases1 disks1 hsome1
    refine ⟨aliases1, r,
      pyUnion (pyInter prot disks1) (pyInter prot aliases1), ?_, haA1, ?_⟩
    · simp only [delete_devices_core]
      rw [hE]
      simp only [if_neg hsel]
      rw [hr]
      rfl
    · intro x hx
      exact hv a haA1 s ha x hx

/-- **C2** (amended).  If disk `d` is a member of multipath alias `a` (an
entry of the alias→members dict, the `'protected'` sentinel popped) and `a`
is not in the protected set, then computing the deletion plan for the
selection `{d}` alone succeeds and yields a plan whose aliases-to-flush set
contains `a` and whose disk set contains every member disk of `a` (so every
*other* member in particular).  (Without the protection proviso the claim
fails: a mounted alias is subtracted from the flush set; see
`delete_devices_mounted_alias_not_flushed`.) -/
theorem delete_devices_expands_multipath_group (hs : HostState)
    (d a : String) (s : PySet)
    (ha : dictGet? a (dictPop "protected" (disk_associations hs)) = some s)
    (hd : d ∈ s) (hprot : a ∉ protectedDevices hs) :
    ∃ flush del blocked,
      delete_devices_plan hs [d] [] = .ok (flush, del, blocked)
      ∧ a ∈ flush ∧ ∀ x ∈ s, x ∈ del :=
  delete_devices_core_expands (dictPop "protected" (disk_associations hs))
    (dictGetD "protected" (disk_associations hs) []) d a s ha hd hprot

/-- A host with one unmounted, LVM-free multipath alias `testvol2` whose
member disks are `sdg` and `sdh`. -/
def cleanMultipathHost : HostState :=
  { multipathList := ["testvol2"],
    multipathInfo := fun device =>
      if device = "testvol2" then
        ["  |- 34:0:0:1 sdg 8:96  active ready running",
         "  |- 36:0:0:1 sdh 8:112 active ready running"]
      else [],
    findmntOut := [],
    pvsOut := [] }

/-- Witness for `delete_devices_expands_multipath_group`: the spec's
scenario — deleting member disk `sdg` of the unprotected alias `testvol2`
flushes `testvol2` and deletes both members. -/
theorem delete_devices_expands_multipath_group_witness :
    dictGet? "testvol2"
        (dictPop "protected" (disk_associations cleanMultipathHost)) =
      some ["sdh", "sdg"]
    ∧ "sdg" ∈ (["sdh", "sdg"] : PySet)
    ∧ "testvol2" ∉ protectedDevices cleanMultipathHost
    ∧ ∃ flush del blocked,
        delete_devices_plan cleanMultipathHost ["sdg"] [] =
          .ok (flush, del, blocked)
        ∧ "testvol2" ∈ flush ∧ ∀ x ∈ (["sdh", "sdg"] : PySet), x ∈ del :=
  ⟨rfl, by decide, by decide,
    delete_devices_expands_multipath_group cleanMultipathHost "sdg" "testvol2"
      ["sdh", "sdg"] rfl (by decide) (by decide)⟩

/-- A host where alias `testvol1` (sole member `sdc`) is mounted at
`/dev/mapper/testvol1`, so both the alias and its member are protected. -/
def mountedAliasHost : HostState :=
  { multipathList := ["testvol1"],
    multipathInfo := fun device =>
      if device = "testvol1" then
        ["  |- 33:0:0:1 sdc 8:32  active ready running"]
      else [],
    findmntOut := ["/dev/mapper/testvol1"],
    pvsOut := [] }

/-- **C2** (counterexample to the claim as stated).  `sdc` is a member disk
of alias `testvol1`, but because `testvol1` is mounted (protected), the
plan computed for the selection `{sdc}` alone has an *empty* flush set —
it does not include the alias, contrary to the claim's "for every host
state". -/
theorem delete_devices_mounted_alias_not_flushed :
    dictGet? "testvol1"
        (dictPop "protected" (disk_associations mountedAliasHost)) =
      some ["sdc"]
    ∧ delete_devices_plan mountedAliasHost ["sdc"] [] =
        .ok ([], [], ["sdc", "testvol1"])
    ∧ "testvol1" ∉ ([] : PySet) :=
  ⟨rfl, rfl, by decide⟩

/-- A host where alias `testvol2` has member disks `sdg, sdh` and `sdg` is
also an LVM physical volume (`pvs` reports `/dev/sdg1`), so `sdg` is
protected while `testvol2` itself is not. -/
def lvmMemberHost : HostState :=
  { multipathList := ["testvol2"],
    multipathInfo := fun device =>
      if device = "testvol2" then
        ["  |- 34:0:0:1 sdg 8:96  active ready running",
         "  |- 36:0:0:1 sdh 8:112 active ready running"]
      else [],
    findmntOut := [],
    pvsOut := ["  /dev/sdg1"] }

/-- **C1** (the code violates its own protection rule; evaluation at the
failing input).  On `lvmMemberHost`, requesting deletion of `sdg` — an LVM
physical volume, hence protected — produces a plan that *still deletes
`sdg`*: the protected subtraction removes it (and reports it refused), but
the final `disks |= device_groups[alias]` loop re-adds every member disk
of the surviving alias `testvol2`, `sdg` included.  The script's docstring
says it "will refuse to delete … any block device in an LVM
configuration". -/
theorem delete_devices_deletes_protected_lvm_pv :
    "sdg" ∈ protectedDevices lvmMemberHost
    ∧ delete_devices_plan lvmMemberHost ["sdg"] [] =
        .ok (["testvol2"], ["sdh", "sdg"], ["sdg"])
    ∧ "sdg" ∈ (["sdh", "sdg"] : PySet) :=
  ⟨by decide, rfl, by decide⟩

end Compellent
